import Mathlib

set_option maxRecDepth 100000

/-!
Shallow embedding of the tcalc parsing-and-evaluation core (Rust sources under
`src/core/`): tokens, patterns, the tokenizer and structural parser
(`parser.rs`), bit-sequence values (`bitseqs.rs`), the tagged `Value` union and
`ValueStore` (`values.rs`), arbitrary-precision integers (`integers.rs`), and
the tree-walking evaluator (`evaluator.rs`).

Modelling conventions:
* Rust `u128` / `i128` are modelled as `Nat` / `Int`; where overflow or range
  checks matter the source's explicit bounds (`2^127`, `2^128`) appear in the
  definitions exactly where the Rust conversion traits check them.
* Rust panics (`panic!`, `todo!`, `.unwrap()` failure) are modelled by the
  `Res.panic` outcome, kept distinct from returned user-facing errors.
* Loops are modelled by structurally recursive functions on an explicit fuel
  argument; wrappers supply fuel that dominates the loop's iteration count
  (each loop strictly decreases a measure bounded by the supplied fuel), and
  fuel exhaustion is a distinguished internal error that sufficient fuel never
  reaches.
* `f64` (`values.rs`: `type Decimal = f64`) is floating point and is not
  modelled; the Decimal payload is an opaque placeholder `DecimalVal` and no
  theorem below depends on Decimal arithmetic.
-/

namespace TCalc

/-- Result type: `ok` / returned error `err` / process abort `panic`
(models Rust `Result` plus panics). -/
inductive Res (ε : Type) (α : Type) where
  | ok (a : α)
  | err (e : ε)
  | panic (msg : String)
deriving DecidableEq

/-- Source position, `parser.rs` `Position { line, chr }`. (`errors.rs` has a
second position type `InputPosition` that also carries a file name; the file
name is constant in the core and is omitted here.) -/
structure Position where
  line : Nat
  chr : Nat
deriving DecidableEq

def Position.default : Position := ⟨0, 0⟩

/-- `errors.rs` `SyntaxError`. -/
structure SyntaxError where
  msg : String
  position : Position
deriving DecidableEq

/-- `errors.rs` `ConversionError` (constructed via `new`, default position). -/
structure ConversionError where
  msg : String
deriving DecidableEq

/-- `errors.rs` `InvalidOperationError` (constructed via `new`, default position). -/
structure InvalidOperationError where
  msg : String
deriving DecidableEq

/-- `errors.rs` `TCalcErrorKind`. -/
inductive TCalcErrorKind where
  | syntaxError
  | conversionError
  | invalidOperationError
deriving DecidableEq

/-- `errors.rs` `TCalcError`. -/
structure TCalcError where
  msg : String
  kind : TCalcErrorKind
  position : Position
deriving DecidableEq

/-- `tokens.rs` `TokenType`. The fractional-numeral kind is spelled `Rational`
in `parser.rs` and `Decimal` in `tokens.rs` (the sources are mid-rename); it is
one constructor here, named `rational` after the spelling `parser.rs` uses. -/
inductive TokenType where
  | ambiguousOperator
  | binaryFunctionIdentifier
  | binaryOperator
  | bitseq
  | rational
  | expression
  | integer
  | unaryFunctionIdentifier
  | unaryOperator
  | variableIdentifier
deriving DecidableEq

namespace TokenType

/-- `tokens.rs` `TokenType::is_numeral`. -/
def is_numeral : TokenType → Bool
  | .bitseq | .rational | .integer => true
  | _ => false

/-- `tokens.rs` `TokenType::is_operator`. -/
def is_operator : TokenType → Bool
  | .ambiguousOperator | .binaryOperator | .unaryOperator => true
  | _ => false

/-- `tokens.rs` `TokenType::is_unary`. -/
def is_unary : TokenType → Bool
  | .unaryFunctionIdentifier | .unaryOperator => true
  | _ => false

/-- `tokens.rs` `TokenType::is_binary`. -/
def is_binary : TokenType → Bool
  | .binaryFunctionIdentifier | .binaryOperator => true
  | _ => false

/-- `tokens.rs` `TokenType::is_function_identifier`. -/
def is_function_identifier : TokenType → Bool
  | .binaryFunctionIdentifier | .unaryFunctionIdentifier => true
  | _ => false

/-- `tokens.rs` `TokenType::is_variable_identifier`. -/
def is_variable_identifier : TokenType → Bool
  | .variableIdentifier => true
  | _ => false

/-- `tokens.rs` `TokenType::is_terminal`. -/
def is_terminal : TokenType → Bool
  | .bitseq | .rational | .integer | .variableIdentifier => true
  | _ => false

end TokenType

/-- `tokens.rs` `Token`. -/
structure Token where
  type_ : TokenType
  content : List Char
  position : Position
  implicit : Bool
deriving DecidableEq

/-- `tokens.rs` `Token::new`. -/
def Token.new (type_ : TokenType) (content : List Char) (position : Position) : Token :=
  ⟨type_, content, position, false⟩

/-- `tokens.rs` `Token::new_implicit`. -/
def Token.new_implicit (type_ : TokenType) (content : List Char) (position : Position) : Token :=
  ⟨type_, content, position, true⟩

/-- `tokens.rs` `Token::content_to_string`. -/
def Token.content_to_string (t : Token) : String :=
  String.mk t.content

/-! ## Static pattern data (`patterns.rs`) -/

namespace patterns

def NUMERAL_INITIAL_CHARS : List Char := "0123456789.,".toList

def NUMERAL_INTERNAL_CHARS : List Char := "0123456789.,abcdefoxABCDEFOX_".toList

def IGNORABLE_WHITESPACE_CHARS : List Char := " \t".toList

def OPERATOR_INITIAL_CHARS : List Char := "+-!^*/%¬<>=:&|?~".toList

def OPERATOR_INTERNAL_CHARS : List Char := OPERATOR_INITIAL_CHARS

/-- `patterns.rs` `IDENTIFIER_INITIAL_CHARS` — copied verbatim from the source:
the letter between `h` and `j` is `o` (twice in each case run), not `i`. -/
def IDENTIFIER_INITIAL_CHARS : List Char :=
  "abcdefghojklmnopqrstuvwxyzABCDEFGHOJKLMNOPQRSTUVWXYZ\\".toList

def IDENTIFIER_INTERNAL_CHARS : List Char := IDENTIFIER_INITIAL_CHARS

def AMBIGUOUS_OPERATORS : List String := ["+", "-"]

def UNARY_OPERATORS : List String := ["+", "-", "!", "¬", "~"]

def BINARY_OPERATORS : List String :=
  ["^", "*", "/", "%", "+", "-", "<=>", "<=", ">=", ":=", "<<<", ">>>", "<<", ">>", "<", ">",
   "!=", "==", "&&", "||", "??", "!?", "&", "|", "^|"]

def BUILTIN_UNARY_FUNCTIONS : List String :=
  ["abs", "not", "sin", "cos", "tan", "cot", "sec", "csc", "exp", "ln", "lg", "log", "sqrt",
   "cbrt", "mem"]

def BUILTIN_BINARY_FUNCTIONS : List String := ["rt", "logb", "choose"]

def BINARY_OPERATOR_PRECEDENCE : List (List String) :=
  [["^"],
   ["*", "/", "%"],
   ["+", "-"],
   ["<<", ">>", "<<<", ">>>"],
   ["&"],
   ["|"],
   ["^|"],
   [">", "<", "<=", ">=", "!=", "==", "<=>", "??", "!?"],
   ["&&", "||"],
   [":="]]

end patterns

/-! ## Minimal regular expressions (`patterns.rs` `lazy_static` regexes)

The numeral-classification regexes of `patterns.rs` are all fully anchored
(`^...$`) and use only character classes, sequencing, alternation, `*` and `?`.
They are embedded via Brzozowski derivatives: `RPat.matches` is exactly
anchored full-string matching. -/

inductive RPat where
  | eps
  | cls (cs : List Char)
  | seq (p q : RPat)
  | alt (p q : RPat)
  | star (p : RPat)

def RPat.nullable : RPat → Bool
  | .eps => true
  | .cls _ => false
  | .seq p q => p.nullable && q.nullable
  | .alt p q => p.nullable || q.nullable
  | .star _ => true

def RPat.deriv : RPat → Char → RPat
  | .eps, _ => .cls []
  | .cls cs, c => if cs.contains c then .eps else .cls []
  | .seq p q, c =>
      if p.nullable then .alt (.seq (p.deriv c) q) (q.deriv c) else .seq (p.deriv c) q
  | .alt p q, c => .alt (p.deriv c) (q.deriv c)
  | .star p, c => .seq (p.deriv c) (.star p)

def RPat.matches (p : RPat) (s : List Char) : Bool :=
  (s.foldl RPat.deriv p).nullable

def RPat.opt (p : RPat) : RPat := .alt p .eps

def RPat.seqs : List RPat → RPat
  | [] => .eps
  | [p] => p
  | p :: ps => .seq p (RPat.seqs ps)

namespace patterns

def digits09 : List Char := "0123456789".toList

def digits01 : List Char := "01".toList

def digits07 : List Char := "01234567".toList

def digitsHex : List Char := "0123456789abcdefABCDEF".toList

def fracSep : List Char := ".,".toList

/-- `^0[bB][01_]*[01]$` -/
def binaryIntegerRe : RPat :=
  RPat.seqs [.cls ['0'], .cls ['b', 'B'], .star (.cls ('_' :: digits01)), .cls digits01]

/-- `^0[bB][01_]*[.,](?:[01_]*[01])?$` -/
def binaryRationalRe : RPat :=
  RPat.seqs [.cls ['0'], .cls ['b', 'B'], .star (.cls ('_' :: digits01)), .cls fracSep,
    RPat.opt (.seq (.star (.cls ('_' :: digits01))) (.cls digits01))]

/-- `^(?:0[dD]_?[0-9]|[0-9])(?:[0-9_]*[0-9])?$` -/
def decimalIntegerRe : RPat :=
  .seq
    (.alt (RPat.seqs [.cls ['0'], .cls ['d', 'D'], RPat.opt (.cls ['_']), .cls digits09])
      (.cls digits09))
    (RPat.opt (.seq (.star (.cls ('_' :: digits09))) (.cls digits09)))

/-- `^(?:0[dD]_?)?(?:[0-9]*|[0-9][0-9_]*)[.,](?:[0-9]*|[0-9_]*[0-9])$` -/
def decimalRationalRe : RPat :=
  RPat.seqs
    [RPat.opt (RPat.seqs [.cls ['0'], .cls ['d', 'D'], RPat.opt (.cls ['_'])]),
     .alt (.star (.cls digits09)) (.seq (.cls digits09) (.star (.cls ('_' :: digits09)))),
     .cls fracSep,
     .alt (.star (.cls digits09)) (.seq (.star (.cls ('_' :: digits09))) (.cls digits09))]

/-- `^0[xX][0-9a-fA-F_]*[0-9a-fA-F]$` -/
def hexIntegerRe : RPat :=
  RPat.seqs [.cls ['0'], .cls ['x', 'X'], .star (.cls ('_' :: digitsHex)), .cls digitsHex]

/-- `^0[xX][0-9a-fA-F_]*[.,](?:[0-9a-fA-F_]*[0-9a-fA-F])?$` -/
def hexRationalRe : RPat :=
  RPat.seqs [.cls ['0'], .cls ['x', 'X'], .star (.cls ('_' :: digitsHex)), .cls fracSep,
    RPat.opt (.seq (.star (.cls ('_' :: digitsHex))) (.cls digitsHex))]

/-- `^0[oO][0-7_]*[0-7]$` -/
def octalIntegerRe : RPat :=
  RPat.seqs [.cls ['0'], .cls ['o', 'O'], .star (.cls ('_' :: digits07)), .cls digits07]

/-- `^0[oO][0-7_]*[.,](?:[0-7_]*[0-7])?$` -/
def octalRationalRe : RPat :=
  RPat.seqs [.cls ['0'], .cls ['o', 'O'], .star (.cls ('_' :: digits07)), .cls fracSep,
    RPat.opt (.seq (.star (.cls ('_' :: digits07))) (.cls digits07))]

end patterns

/-! ## Bit sequences (`bitseqs.rs`) -/

/-- `bitseqs.rs`: `pub type BitseqT = u128`; here the carrier is `Nat`, with
range checks written out where the Rust conversion traits perform them. -/
structure Bitseq where
  value : Nat
  len : Nat
deriving DecidableEq

namespace Bitseq

/-- `bitseqs.rs` `Bitseq::ZERO`. -/
def ZERO : Bitseq := ⟨0, 1⟩

/-- `bitseqs.rs` `Bitseq::new` — panics (`Res.panic`) when `len >= 128`. -/
def new (value : Nat) (len : Nat) : Res Empty Bitseq :=
  if 128 ≤ len then .panic "Length of Bitseq can be 128 bits at most"
  else .ok ⟨value, len⟩

/-- Binary digit accumulation, as done by `u128::from_str_radix(s, 2)` for a
string of `0`/`1` characters. -/
def binAccum (s : List Char) : Nat :=
  s.foldl (fun acc c => acc * 2 + (if c = '1' then 1 else 0)) 0

/-- `bitseqs.rs` `Bitseq::from_str`: rejects the empty string, strings longer
than 128 characters, and strings with characters other than `0`/`1`; otherwise
the value is the radix-2 reading and the length is the character count.
(For at most 128 binary digits the radix-2 reading is at most `2^128 - 1`, so
the `u128` parse in the source cannot overflow.) -/
def from_str (s : List Char) : Option Bitseq :=
  if s.length < 1 || 128 < s.length || s.any (fun c => !(['0', '1'].contains c)) then
    none
  else
    some ⟨binAccum s, s.length⟩

/-- `bitseqs.rs` `Bitseq::is_zero`. -/
def is_zero (b : Bitseq) : Bool := b.value = 0

/-- Mask accumulation: `let mut mask = 0; for i in 0..len { mask |= 1 << i }`. -/
def maskAux : Nat → Nat
  | 0 => 0
  | k + 1 => maskAux k ||| (1 <<< k)

/-- `bitseqs.rs` `Bitseq::neg_mut` (functional form): xor with the low-`len`
ones mask. -/
def neg_mut (b : Bitseq) : Bitseq :=
  ⟨b.value ^^^ maskAux b.len, b.len⟩

/-- Bit length of a `u128` value: `BitseqT::BITS - value.leading_zeros()`,
computed by halving (128 halvings suffice for any `u128`). -/
def bitLenAux : Nat → Nat → Nat
  | 0, _ => 0
  | fuel + 1, v => if v = 0 then 0 else bitLenAux fuel (v / 2) + 1

/-- `bitseqs.rs` `impl From<BitseqT> for Bitseq`:
`len = BitseqT::BITS - value.leading_zeros()`. -/
def fromBitseqT (value : Nat) : Bitseq :=
  ⟨value, bitLenAux 128 value⟩

/-- `bitseqs.rs` `impl TryInto<Integer> for Bitseq` with `Integer = i128`
(`values.rs`): `i128::try_from(u128)` succeeds exactly when the value is at
most `i128::MAX = 2^127 - 1`. -/
def tryIntoInteger (b : Bitseq) : Except ConversionError Int :=
  if b.value ≤ 2 ^ 127 - 1 then .ok (b.value : Int)
  else .error ⟨"Bitseq too wide to convert to Integer"⟩

/-- `bitseqs.rs` `impl TryFrom<Integer> for Bitseq` with `Integer = i128`:
negative values are rejected; otherwise `u128::try_from` of a non-negative
`i128` always succeeds and the result goes through `From<BitseqT>`. -/
def tryFromInteger (value : Int) : Except ConversionError Bitseq :=
  if value < 0 then .error ⟨"Cannot convert negative Integer to Bitseq"⟩
  else .ok (fromBitseqT value.toNat)

end Bitseq

/-! ## Arbitrary-precision integers (`integers.rs`)

`integers.rs` wraps `fastnum::I512` (`IntegerT`). The carrier is modelled as
`Int`; the one arithmetic routine the claims touch, `factorial`, is guarded by
`MAX_FACTORIAL = 97`, and `97!` fits `I512` (a 512-bit signed integer), so on
the guarded domain the `Int` model coincides with `I512`. -/

namespace Integers

/-- `integers.rs` `Integer` (wrapper around `IntegerT = I512`). -/
structure Integer where
  value : Int
deriving DecidableEq

/-- `integers.rs` `Integer::MAX_FACTORIAL`. -/
def Integer.MAX_FACTORIAL : Integer := ⟨97⟩

/-- The `while i < self.value` product loop of `Integer::factorial`:
`factLoop n = n!` computed as `1 * 1 * 2 * ... * n`. -/
def factLoop : Nat → Int
  | 0 => 1
  | n + 1 => factLoop n * ((n : Int) + 1)

/-- `integers.rs` `Integer::factorial`: negative values fail, values above
`MAX_FACTORIAL = 97` fail with the gamma recommendation, otherwise the loop
computes the factorial. -/
def Integer.factorial (self : Integer) : Except InvalidOperationError Integer :=
  if self.value < 0 then
    .error ⟨"Factorial undefined for values < 0"⟩
  else if 97 < self.value then
    .error ⟨"Factorial of value > 97 exceeds size of Integer type, consider approximating the factorial via `gamma (x + 1)`"⟩
  else
    .ok ⟨factLoop self.value.toNat⟩

end Integers

/-! ## Values (`values.rs`) -/

/-- Placeholder for the `values.rs` Decimal payload (`type Decimal = f64`):
floating point is not modelled, and no claim below depends on Decimal
arithmetic. -/
inductive DecimalVal where
  | zero
  | unmodeled
deriving DecidableEq

/-- `values.rs` `ValueType`. -/
inductive ValueType where
  | bitseq
  | decimal
  | integer
deriving DecidableEq

def ValueType.display : ValueType → String
  | .bitseq => "Bitseq"
  | .decimal => "Decimal"
  | .integer => "Integer"

/-- `values.rs` `Value`: one tag plus all three payload fields (the original
keeps the inactive payloads at their zero defaults). `val_integer` models
`i128`. -/
structure Value where
  type_ : ValueType
  val_bitseq : Bitseq
  val_decimal : DecimalVal
  val_integer : Int
deriving DecidableEq

namespace Value

/-- `values.rs` `Value::from_integer`. -/
def from_integer (i : Int) : Value :=
  ⟨.integer, Bitseq.ZERO, .zero, i⟩

/-- `values.rs` `Value::from_decimal`. -/
def from_decimal (d : DecimalVal) : Value :=
  ⟨.decimal, Bitseq.ZERO, d, 0⟩

/-- `values.rs` `Value::from_bitseq`. -/
def from_bitseq (b : Bitseq) : Value :=
  ⟨.bitseq, b, .zero, 0⟩

/-- `values.rs` `Value::_check_str_and_get_base`: classify by the anchored
regexes, in source order binary, octal, decimal, hexadecimal. -/
def check_str_and_get_base (s : List Char) : Option Nat :=
  if patterns.binaryIntegerRe.matches s || patterns.binaryRationalRe.matches s then some 2
  else if patterns.octalIntegerRe.matches s || patterns.octalRationalRe.matches s then some 8
  else if patterns.decimalIntegerRe.matches s || patterns.decimalRationalRe.matches s then some 10
  else if patterns.hexIntegerRe.matches s || patterns.hexRationalRe.matches s then some 16
  else none

/-- `values.rs` `Value::_has_fractional_separator`. -/
def has_fractional_separator (s : List Char) : Bool :=
  s.contains '.' || s.contains ','

/-- `values.rs` `Value::_has_base_prefix` (`BASE_PREFIX` is anchored only at
the start: the string starts with `0` followed by one of `bBdDoOxX`). -/
def has_base_pfx (s : List Char) : Bool :=
  match s with
  | c0 :: c1 :: _ => c0 = '0' && ['b', 'B', 'd', 'D', 'o', 'O', 'x', 'X'].contains c1
  | _ => false

/-- `values.rs` `Value::_strip_base_prefix`: drop the first two characters
(`s.get(2..)`), returning the string unchanged when it is shorter. -/
def strip_base_pfx (s : List Char) : List Char :=
  if 2 ≤ s.length then s.drop 2 else s

/-- `values.rs` `Value::_strip_str`: remove `_`, normalise `,` to `.`, and
strip the base prefix when the original string has one. -/
def strip_str (s : List Char) : List Char :=
  let result := (s.filter (fun c => !(c = '_'))).map (fun c => if c = ',' then '.' else c)
  if has_base_pfx s then strip_base_pfx result else result

/-- Digit value of a character, as in `values.rs` `Value::_char_to_val` /
`i128::from_str_radix` digit handling. -/
def digitVal (c : Char) : Option Nat :=
  if '0' ≤ c && c ≤ '9' then some (c.toNat - '0'.toNat)
  else if 'a' ≤ c && c ≤ 'z' then some (c.toNat - 'a'.toNat + 10)
  else if 'A' ≤ c && c ≤ 'Z' then some (c.toNat - 'A'.toNat + 10)
  else none

def digitsAccum (radix : Nat) : List Char → Nat → Option Nat
  | [], acc => some acc
  | c :: rest, acc =>
      match digitVal c with
      | some d => if d < radix then digitsAccum radix rest (acc * radix + d) else none
      | none => none

/-- `i128::from_str_radix`: optional sign, at least one digit, digits valid
for the radix, result within the `i128` range. -/
def i128_from_str_radix (s : List Char) (radix : Nat) : Option Int :=
  let (neg, ds) : Bool × List Char :=
    match s with
    | '-' :: rest => (true, rest)
    | '+' :: rest => (false, rest)
    | _ => (false, s)
  match ds with
  | [] => none
  | _ =>
      match digitsAccum radix ds 0 with
      | none => none
      | some n =>
          let v : Int := if neg then -(n : Int) else (n : Int)
          if -(2 ^ 127) ≤ v && v ≤ 2 ^ 127 - 1 then some v else none

/-- `values.rs` `Value::_from_bitseq_str`. -/
def from_bitseq_str (s : List Char) (position : Position) : Except SyntaxError Value :=
  let norm_s := strip_str s
  match Bitseq.from_str norm_s with
  | some b => .ok (from_bitseq b)
  | none =>
      .error ⟨"Failed to parse string \"" ++ String.mk s ++ "\" (normalised to \"" ++
        String.mk norm_s ++ "\" into bit-sequence value", position⟩

/-- `values.rs` `Value::_from_int_str`. -/
def from_int_str (s : List Char) (base : Nat) (position : Position) : Except SyntaxError Value :=
  let norm_s := strip_str s
  match i128_from_str_radix norm_s base with
  | some i => .ok (from_integer i)
  | none =>
      .error ⟨"Failed to parse string \"" ++ String.mk s ++ "\" (normalised to \"" ++
        String.mk norm_s ++ "\" into integer value", position⟩

/-- `values.rs` `Value::_from_dec_str` — the `f64` parse itself is not
modelled (floating point); the claims never evaluate a fractional literal.
The source can also fail here with a SyntaxError naming the literal. -/
def from_dec_str (_s : List Char) (_base : Nat) (_position : Position) :
    Except SyntaxError Value :=
  .ok (from_decimal .unmodeled)

/-- `values.rs` `Value::from_str`. -/
def from_str (s : List Char) (position : Position) : Except SyntaxError Value :=
  match check_str_and_get_base s with
  | none =>
      .error ⟨"The pattern of the numeral string \"" ++ String.mk s ++ "\" is invalid", position⟩
  | some base =>
      if has_fractional_separator s then from_dec_str s base position
      else if base = 2 then from_bitseq_str s position
      else from_int_str s base position

/-- `values.rs` `Value::try_mutate_into` (functional form). Only the
conversion paths a claim can reach are live; Decimal-source and
Decimal-target numeric conversions go through `f64` casts and are left on the
`DecimalVal` placeholder. -/
def try_mutate_into (self : Value) (into_type : ValueType) : Except ConversionError Value :=
  if into_type = self.type_ then .ok self
  else
    match self.type_, into_type with
    | .bitseq, .integer =>
        match self.val_bitseq.tryIntoInteger with
        | .ok i => .ok ⟨.integer, Bitseq.ZERO, self.val_decimal, i⟩
        | .error e => .error e
    | .bitseq, .decimal =>
        -- `Bitseq::try_into::<Decimal>` checks a lossless `f64` round-trip;
        -- the payload is the unmodeled Decimal placeholder.
        .ok ⟨.decimal, Bitseq.ZERO, .unmodeled, self.val_integer⟩
    | .integer, .bitseq =>
        match Bitseq.tryFromInteger self.val_integer with
        | .ok b => .ok ⟨.bitseq, b, self.val_decimal, 0⟩
        | .error e => .error e
    | .integer, .decimal =>
        .ok ⟨.decimal, self.val_bitseq, .unmodeled, 0⟩
    | .decimal, .bitseq =>
        .error ⟨"Decimal to Bitseq conversion not modelled (f64)"⟩
    | .decimal, .integer =>
        .error ⟨"Decimal to Integer conversion not modelled (f64)"⟩
    | _, _ =>
        .error ⟨"No known conversion path to mutate " ++ self.type_.display ++ " to " ++
          into_type.display⟩

/-- `values.rs` `Value::unary_pos`. -/
def unary_pos (self : Value) : Value := self

/-- `values.rs` `Value::unary_neg`: Bitseq operands are first mutated to
Integer with `.unwrap()` (panic on conversion failure), then negated. -/
def unary_neg (self : Value) : Res Empty Value :=
  let mutated : Res Empty Value :=
    if self.type_ = .bitseq then
      match self.try_mutate_into .integer with
      | .ok v => .ok v
      | .error e => .panic ("unwrap on ConversionError: " ++ e.msg)
    else .ok self
  match mutated with
  | .ok v =>
      match v.type_ with
      | .bitseq => .ok v -- unreachable per the source comment
      | .decimal => .ok v -- Decimal negation acts on the unmodeled payload
      | .integer => .ok ⟨.integer, v.val_bitseq, v.val_decimal, -v.val_integer⟩
  | r => r

/-- `i128::checked_mul`. -/
def checked_mul_i128 (a b : Int) : Option Int :=
  let p := a * b
  if -(2 ^ 127) ≤ p && p ≤ 2 ^ 127 - 1 then some p else none

/-- The `(1..n).try_fold(n, checked_mul)` of `values.rs` `Value::factorial`:
multiply the start value by `1, 2, ..., n-1` with `i128` overflow checks. -/
def tryFoldMul (start : Int) : List Int → Option Int
  | [] => some start
  | i :: rest =>
      match checked_mul_i128 start i with
      | some v => tryFoldMul v rest
      | none => none

/-- The range `1..n` as a list of `Int` (empty when `n ≤ 1`). -/
def rangeOneTo (n : Int) : List Int :=
  (List.range (n.toNat - 1)).map (fun k => (k : Int) + 1)

/-- `values.rs` `Value::factorial`: Bitseq mutates to Integer first
(`.unwrap()`); for Integer with `signum ∈ {0, 1}` the value is folded by
`checked_mul` over `1..n` starting at `n` (so `0!` evaluates to `0` in this
legacy copy); a negative Integer fails; the Decimal branch is `todo!()`
(panic). -/
def factorial (self : Value) : Res InvalidOperationError Value :=
  let mutated : Res InvalidOperationError Value :=
    if self.type_ = .bitseq then
      match self.try_mutate_into .integer with
      | .ok v => .ok v
      | .error e => .panic ("unwrap on ConversionError: " ++ e.msg)
    else .ok self
  match mutated with
  | .ok v =>
      if v.type_ = .integer then
        if 0 ≤ v.val_integer then
          match tryFoldMul v.val_integer (rangeOneTo v.val_integer) with
          | some r => .ok ⟨.integer, v.val_bitseq, v.val_decimal, r⟩
          | none => .err ⟨"Factorial too large to fit Integer"⟩
        else
          .err ⟨"Factorial operation undefined for negative integers"⟩
      else
        .panic "not yet implemented" -- `todo!()` in the Decimal branch
  | r => r

/-- `values.rs` `Value::logical_neg`. -/
def logical_neg (self : Value) : Value :=
  let is_zero : Bool :=
    match self.type_ with
    | .bitseq => self.val_bitseq.is_zero
    | .decimal => self.val_decimal = .zero
    | .integer => self.val_integer = 0
  from_integer (if is_zero then 1 else 0)

/-- `values.rs` `Value::bitwise_neg`: requires a Bitseq operand, then
`neg_mut`. -/
def bitwise_neg (self : Value) : Except ConversionError Value :=
  if !(self.type_ = .bitseq) then
    .error ⟨"Cannot apply bitwise negation to a value other than a bit-sequence (Bitseq)"⟩
  else
    .ok ⟨.bitseq, self.val_bitseq.neg_mut, self.val_decimal, self.val_integer⟩

end Value

/-- `values.rs` `ValueStore`: a map from identifier to `Value` (modelled as a
lookup function) plus the protected-key list. `set` and `get` use the
identifier verbatim — the source performs no key normalisation. -/
structure ValueStore where
  map : String → Option Value
  protected_keys : List String

namespace ValueStore

/-- `values.rs` `ValueStore::default`: empty map, no protected keys. -/
def default : ValueStore := ⟨fun _ => none, []⟩

/-- `values.rs` `ValueStore::with_protected_keys`. -/
def with_protected_keys (keys : List String) : ValueStore := ⟨fun _ => none, keys⟩

/-- `values.rs` `ValueStore::set`: unconditional insert under the verbatim
key. -/
def set (self : ValueStore) (identifier : String) (value : Value) : ValueStore :=
  ⟨fun k => if k = identifier then some value else self.map k, self.protected_keys⟩

/-- `values.rs` `ValueStore::get`: lookup under the verbatim key. -/
def get (self : ValueStore) (identifier : String) : Option Value :=
  self.map identifier

/-- `values.rs` `ValueStore::contains_identifier`. -/
def contains_identifier (self : ValueStore) (identifier : String) : Bool :=
  (self.map identifier).isSome

/-- `values.rs` `ValueStore::clear`: keep only protected keys. -/
def clear (self : ValueStore) : ValueStore :=
  ⟨fun k => if self.protected_keys.contains k then self.map k else none, self.protected_keys⟩

/-- `values.rs` `ValueStore::clear_all`. -/
def clear_all (_self : ValueStore) : ValueStore :=
  ⟨fun _ => none, []⟩

end ValueStore

/-! ## AST (`ast.rs`)

`ast.rs` has `AstNode { token, subtree : Option<Ast>, value }` and
`Ast { _vec : Vec<AstNode>, _level }`. Here a node carries the optional
subtree inline: `hasSub` is `subtree.is_some()`, `sublevel` is the subtree's
`_level`, and `children` its `_vec` (meaningful only when `hasSub = true`,
matching the `Option`). The top-level `Ast` is a separate structure. -/

inductive AstNode where
  | mk (token : Token) (hasSub : Bool) (sublevel : Nat) (children : List AstNode)
      (value : Option Value)

def AstNode.token : AstNode → Token
  | .mk t _ _ _ _ => t

def AstNode.hasSub : AstNode → Bool
  | .mk _ h _ _ _ => h

def AstNode.sublevel : AstNode → Nat
  | .mk _ _ s _ _ => s

def AstNode.children : AstNode → List AstNode
  | .mk _ _ _ c _ => c

def AstNode.value : AstNode → Option Value
  | .mk _ _ _ _ v => v

/-- `ast.rs` `Ast`. -/
structure Ast where
  vec : List AstNode
  level : Nat

/-- `ast.rs` `AstNode::new_from_token`. -/
def AstNode.new_from_token (token : Token) : AstNode :=
  .mk token false 0 [] none

/-- `ast.rs` `AstNode::has_subtree`. -/
def AstNode.has_subtree (n : AstNode) : Bool := n.hasSub

/-- `ast.rs` `AstNode::set_subtree`. -/
def AstNode.set_subtree (n : AstNode) (subtree : Ast) : AstNode :=
  .mk n.token true subtree.level subtree.vec n.value

/-- `ast.rs` `AstNode::new_with_subtree`. -/
def AstNode.new_with_subtree (token : Token) (subtree : Ast) : AstNode :=
  .mk token true subtree.level subtree.vec none

/-- `ast.rs` `Ast::relevel_from`, acting on one node: if the node has a
subtree, that subtree's level becomes `childLevel` and its nodes are
releveled from `childLevel` recursively. `fuel` bounds the recursion depth
(the tree depth); fuel exhaustion leaves the node unchanged and is never
reached by the concrete trees below. -/
def relevelNodeF : Nat → Nat → AstNode → AstNode
  | 0, _, n => n
  | fuel + 1, childLevel, n =>
      if n.hasSub then
        .mk n.token true childLevel (n.children.map (relevelNodeF fuel (childLevel + 1)))
          n.value
      else n

/-- `ast.rs` `Ast::relevel_from`. -/
def Ast.relevel_from (a : Ast) (fuel : Nat) (base_level : Nat) : Ast :=
  ⟨a.vec.map (relevelNodeF fuel (base_level + 1)), base_level⟩

/-- `ast.rs` `Ast::new` / `Ast::default`. -/
def Ast.new : Ast := ⟨[], 0⟩

/-- `ast.rs` `Ast::push`: relevel the pushed node's subtree from the tree's
own level (sic — `push` relevels from `self._level`, not `self._level + 1`),
then append. -/
def Ast.push (a : Ast) (fuel : Nat) (item : AstNode) : Ast :=
  let item := if item.has_subtree then relevelNodeF fuel a.level item else item
  ⟨a.vec ++ [item], a.level⟩

/-- `ast.rs` `Ast::push_token`. -/
def Ast.push_token (a : Ast) (token : Token) : Ast :=
  ⟨a.vec ++ [AstNode.new_from_token token], a.level⟩

/-- `ast.rs` `impl From<Vec<AstNode>> for Ast`: a fresh level-0 tree with each
node `push`ed in order. -/
def Ast.fromVec (fuel : Nat) (nodes : List AstNode) : Ast :=
  nodes.foldl (fun a n => a.push fuel n) Ast.new

/-- `ast.rs` `impl From<AstNode> for Ast`. -/
def Ast.fromNode (fuel : Nat) (node : AstNode) : Ast :=
  Ast.new.push fuel node

/-! ## Structural parser (`parser.rs`) -/

namespace Parser

/-- `parser.rs` `Parser::_copy_while`: the longest prefix drawn from
`charset`. -/
def copy_while (charset : List Char) (input : List Char) : List Char :=
  input.takeWhile (fun c => charset.contains c)

/-- `parser.rs` `Parser::_copy_matchedspan`: scan with a parenthesis depth
counter starting at 1, collecting characters until the matching closer (which
is not collected); `none` when the input ends first. -/
def copy_matchedspan (opening_char closing_char : Char) : Nat → List Char → Option (List Char)
  | _, [] => none
  | parens, c :: rest =>
      let parens' :=
        if c = opening_char then parens + 1
        else if c = closing_char then parens - 1
        else parens
      if parens' < 1 then some []
      else
        match copy_matchedspan opening_char closing_char parens' rest with
        | some buf => some (c :: buf)
        | none => none

/-- Internal fuel-exhaustion error; wrappers always pass sufficient fuel. -/
def fuelError : SyntaxError := ⟨"internal: fuel exhausted", ⟨0, 0⟩⟩

/-- `parser.rs` `Parser::tokenize`, as a scan over the remaining characters.
`i` is the index of the current character in the original input (for
positions); the produced flat node list is returned in order. -/
def tokenizeGo (line chr : Nat) : Nat → List Char → Nat →
    Except SyntaxError (List AstNode)
  | 0, _, _ => .error fuelError
  | _, [], _ => .ok []
  | fuel + 1, c :: rest, i =>
      if patterns.IGNORABLE_WHITESPACE_CHARS.contains c then
        tokenizeGo line chr fuel rest (i + 1)
      else if c = '(' then
        match copy_matchedspan '(' ')' 1 rest with
        | none =>
            .error ⟨"Could not match open parenthesis with closing parenthesis",
              ⟨line, chr + i⟩⟩
        | some buf =>
            let token := Token.new .expression buf ⟨line, chr + i⟩
            match tokenizeGo line chr fuel (rest.drop (buf.length + 1)) (i + buf.length + 2) with
            | .ok nodes => .ok (AstNode.new_from_token token :: nodes)
            | .error e => .error e
      else if patterns.NUMERAL_INITIAL_CHARS.contains c then
        let buf := c :: copy_while patterns.NUMERAL_INTERNAL_CHARS rest
        let token_type : TokenType :=
          if buf.contains '.' || buf.contains ',' then .rational
          else if buf.take 2 = ['0', 'b'] then .bitseq
          else .integer
        let token := Token.new token_type buf ⟨line, chr + i⟩
        match tokenizeGo line chr fuel (rest.drop (buf.length - 1)) (i + buf.length) with
        | .ok nodes => .ok (AstNode.new_from_token token :: nodes)
        | .error e => .error e
      else if patterns.IDENTIFIER_INITIAL_CHARS.contains c then
        let buf := c :: copy_while patterns.IDENTIFIER_INTERNAL_CHARS rest
        let token_type : TokenType :=
          if patterns.BUILTIN_UNARY_FUNCTIONS.contains (String.mk buf) then
            .unaryFunctionIdentifier
          else if patterns.BUILTIN_BINARY_FUNCTIONS.contains (String.mk buf) then
            .binaryFunctionIdentifier
          else .variableIdentifier
        let token := Token.new token_type buf ⟨line, chr + i⟩
        match tokenizeGo line chr fuel (rest.drop (buf.length - 1)) (i + buf.length) with
        | .ok nodes => .ok (AstNode.new_from_token token :: nodes)
        | .error e => .error e
      else if patterns.OPERATOR_INITIAL_CHARS.contains c then
        let buf := c :: copy_while patterns.OPERATOR_INTERNAL_CHARS rest
        let token_type? : Option TokenType :=
          if patterns.AMBIGUOUS_OPERATORS.contains (String.mk buf) then
            some .ambiguousOperator
          else if patterns.UNARY_OPERATORS.contains (String.mk buf) then
            some .unaryOperator
          else if patterns.BINARY_OPERATORS.contains (String.mk buf) then
            some .binaryOperator
          else none
        match token_type? with
        | none =>
            .error ⟨"Unknown operator \x27" ++ String.mk buf ++ "\x27", ⟨line, chr + i⟩⟩
        | some token_type =>
            let token := Token.new token_type buf ⟨line, chr + i⟩
            match tokenizeGo line chr fuel (rest.drop (buf.length - 1)) (i + buf.length) with
            | .ok nodes => .ok (AstNode.new_from_token token :: nodes)
            | .error e => .error e
      else if c = ')' then
        .error ⟨"Unexpected closing parenthesis", ⟨line, chr + i⟩⟩
      else
        .error ⟨"Unknown character \x27" ++ String.mk [c] ++ "\x27", ⟨line, chr + i⟩⟩

/-- `parser.rs` `Parser::tokenize` (flat token scan appended to a tree at a
given level; here the tree's level is passed through unchanged and the scan
produces the appended nodes). -/
def tokenize (input : String) (line chr : Nat) : Except SyntaxError (List AstNode) :=
  tokenizeGo line chr (input.toList.length + 1) input.toList 0

/-- Placeholder node for (guarded) list indexing; every `getD` below is
behind the same bounds check the Rust index operation is. -/
def dummyNode : AstNode := .mk (Token.new .integer [] ⟨0, 0⟩) false 0 [] none

/-- Relevel fuel used by the structural passes; it bounds the depth of the
subtrees being releveled and 10000 dominates every tree these passes build
from the inputs considered here. -/
def RF : Nat := 10000

/-- `has_left_value` of `parser.rs` `Parser::disambiguate_operators`. -/
def hasLeftValue (lvl : Nat) (tree : List AstNode) (i : Nat) : Bool :=
  if i < 1 then lvl = 0
  else
    let prev := tree.getD (i - 1) dummyNode
    match prev.token.type_ with
    | .unaryOperator => prev.token.content = ['!']
    | .bitseq | .expression | .integer | .rational | .variableIdentifier => true
    | _ => false

/-- `has_right_value` of `parser.rs` `Parser::disambiguate_operators`; the
`!`-follows case is a hard error. -/
def hasRightValue (tree : List AstNode) (i : Nat) : Except SyntaxError Bool :=
  if i + 1 ≥ tree.length then .ok false
  else
    let next := tree.getD (i + 1) dummyNode
    match next.token.type_ with
    | .unaryOperator =>
        if next.token.content = ['!'] then
          .error ⟨"Ambiguous operator \x27" ++ (tree.getD i dummyNode).token.content_to_string ++
            "\x27 cannot precede unary operator \x27!\x27",
            (tree.getD i dummyNode).token.position⟩
        else .ok true
    | .ambiguousOperator | .bitseq | .expression | .integer | .rational
    | .unaryFunctionIdentifier | .variableIdentifier => .ok true
    | _ => .ok false

/-- Change only a node's token type (the mutation
`tree[i].token.type_ = ...`). -/
def setTokenType (n : AstNode) (tt : TokenType) : AstNode :=
  .mk ⟨tt, n.token.content, n.token.position, n.token.implicit⟩ n.hasSub n.sublevel n.children
    n.value

/-- Loop of `parser.rs` `Parser::disambiguate_operators` (index `i` walks
forward, tree length is invariant). -/
def disambGo (lvl : Nat) : Nat → Nat → List AstNode → Except SyntaxError (List AstNode)
  | 0, _, _ => .error fuelError
  | fuel + 1, i, tree =>
      if i < tree.length then
        let node := tree.getD i dummyNode
        if node.token.type_ = .ambiguousOperator then
          let hl := hasLeftValue lvl tree i
          match hasRightValue tree i with
          | .error e => .error e
          | .ok hr =>
              if hl && hr then
                disambGo lvl fuel (i + 1) (tree.set i (setTokenType node .binaryOperator))
              else if !hl && hr then
                disambGo lvl fuel (i + 1) (tree.set i (setTokenType node .unaryOperator))
              else
                .error ⟨"Could not disambiguate ambiguous operator \x27" ++
                  node.token.content_to_string ++ "\x27, consider using parentheses",
                  node.token.position⟩
        else disambGo lvl fuel (i + 1) tree
      else .ok tree

/-- `parser.rs` `Parser::disambiguate_operators`. -/
def disambiguate_operators (tree : Ast) : Except SyntaxError Ast :=
  match disambGo tree.level (tree.vec.length + 1) 0 tree.vec with
  | .ok v => .ok ⟨v, tree.level⟩
  | .error e => .error e

/-- `is_value` test of `parser.rs` `Parser::expose_implicit_multiplications`. -/
def multIsValue (n : AstNode) : Bool :=
  match n.token.type_ with
  | .unaryOperator => n.token.content = ['!']
  | .bitseq | .expression | .integer | .rational | .variableIdentifier => true
  | _ => false

/-- `next_is_value` test of `parser.rs`
`Parser::expose_implicit_multiplications`. -/
def multNextIsValue (n : AstNode) : Bool :=
  match n.token.type_ with
  | .unaryOperator => !(n.token.content = ['!'])
  | .bitseq | .expression | .integer | .rational | .unaryFunctionIdentifier
  | .variableIdentifier => true
  | _ => false

/-- Loop of `parser.rs` `Parser::expose_implicit_multiplications`: at every
value/value-start boundary splice in an implicit `*` binary operator. -/
def implicitMultGo : Nat → Nat → List AstNode → List AstNode
  | 0, _, tree => tree
  | fuel + 1, i, tree =>
      if i + 1 < tree.length then
        if multIsValue (tree.getD i dummyNode) && multNextIsValue (tree.getD (i + 1) dummyNode)
        then
          let token := Token.new_implicit .binaryOperator ['*']
            (tree.getD (i + 1) dummyNode).token.position
          implicitMultGo fuel (i + 2) (tree.insertIdx (i + 1) (AstNode.new_from_token token))
        else implicitMultGo fuel (i + 1) tree
      else tree

/-- `parser.rs` `Parser::expose_implicit_multiplications` (always `Ok`). -/
def expose_implicit_multiplications (tree : Ast) : Ast :=
  ⟨implicitMultGo (2 * tree.vec.length + 2) 0 tree.vec, tree.level⟩

/-- `parser.rs` `Parser::_generate_mem0_call`: the synthesized
`(mem 0)` expression subtree. -/
def generate_mem0_call (position : Position) : AstNode :=
  AstNode.new_with_subtree
    (Token.new_implicit .expression "(mem 0)".toList position)
    (Ast.fromNode RF
      (AstNode.new_with_subtree
        (Token.new_implicit .unaryFunctionIdentifier ['m', 'e', 'm'] position)
        (Ast.fromNode RF
          (AstNode.new_from_token (Token.new_implicit .integer ['0'] position)))))

/-- `parser.rs` `Parser::expose_implicit_mem0_call`: only at level 0 and only
when the first token is a binary function identifier or binary operator;
prepends the `(mem 0)` subtree and relevels it. -/
def expose_implicit_mem0_call (tree : Ast) : Ast :=
  if tree.level > 0 || tree.vec.length < 1 then tree
  else
    let first := tree.vec.getD 0 dummyNode
    if first.token.type_ = .binaryFunctionIdentifier ||
        first.token.type_ = .binaryOperator then
      let position := first.token.position
      let vec1 := tree.vec.insertIdx 0 (generate_mem0_call position)
      let head := vec1.getD 0 dummyNode
      let head1 :=
        if head.has_subtree then relevelNodeF RF (tree.level + 1) head else head
      ⟨vec1.set 0 head1, tree.level⟩
    else tree

/-- Loop of `parser.rs` `Parser::_incorporate_factorials` (left-to-right):
each postfix `!` consumes the immediately preceding sibling. -/
def incorpFactGo (lvl : Nat) : Nat → Nat → List AstNode → Except SyntaxError (List AstNode)
  | 0, _, _ => .error fuelError
  | fuel + 1, i, tree =>
      if i < tree.length then
        let node := tree.getD i dummyNode
        if node.token.type_ = .unaryOperator && node.token.content = ['!'] then
          if i < 1 then
            .error ⟨"Unary operator \x27!\x27 is missing a left-hand operand",
              node.token.position⟩
          else
            let j := i - 1
            let operand := tree.getD j dummyNode
            let tree1 := tree.eraseIdx j
            let subtree := (Ast.new.push RF operand).relevel_from RF (lvl + 1)
            let tree2 := tree1.set j ((tree1.getD j dummyNode).set_subtree subtree)
            incorpFactGo lvl fuel (j + 1) tree2
        else incorpFactGo lvl fuel (i + 1) tree
      else .ok tree

/-- `parser.rs` `Parser::_incorporate_factorials`. -/
def incorporate_factorials (tree : Ast) : Except SyntaxError Ast :=
  match incorpFactGo tree.level (2 * tree.vec.length + 2) 0 tree.vec with
  | .ok v => .ok ⟨v, tree.level⟩
  | .error e => .error e

/-- Loop of `parser.rs` `Parser::_incorporate_unary_ops_and_funcs`
(right-to-left, `i` is the index processed in the current iteration): each
prefix unary operator or unary function consumes the immediately following
sibling. -/
def incorpUnaryGo (lvl : Nat) : Nat → Nat → List AstNode → Except SyntaxError (List AstNode)
  | 0, _, _ => .error fuelError
  | fuel + 1, i, tree =>
      let node := tree.getD i dummyNode
      if (node.token.type_ = .unaryOperator && !(node.token.content = ['!'])) ||
          node.token.type_ = .unaryFunctionIdentifier then
        if i + 1 ≥ tree.length then
          .error ⟨"Unary operator \x27" ++ node.token.content_to_string ++
            "\x27 is missing a right-hand operand", node.token.position⟩
        else
          let operand := tree.getD (i + 1) dummyNode
          let tree1 := tree.eraseIdx (i + 1)
          let subtree := (Ast.fromNode RF operand).relevel_from RF (lvl + 1)
          let tree2 := tree1.set i ((tree1.getD i dummyNode).set_subtree subtree)
          if i = 0 then .ok tree2 else incorpUnaryGo lvl fuel (i - 1) tree2
      else
        if i = 0 then .ok tree else incorpUnaryGo lvl fuel (i - 1) tree

/-- `parser.rs` `Parser::_incorporate_unary_ops_and_funcs`. -/
def incorporate_unary_ops_and_funcs (tree : Ast) : Except SyntaxError Ast :=
  if tree.vec.length < 1 then .ok tree
  else
    match incorpUnaryGo tree.level (tree.vec.length + 1) (tree.vec.length - 1) tree.vec with
    | .ok v => .ok ⟨v, tree.level⟩
    | .error e => .error e

/-- Loop of `parser.rs` `Parser::_incorporate_binary_op_set` (right-to-left,
`i` is the index processed in the current iteration): each operator of the
tier consumes its immediate left and right siblings; after a fold the scan
continues to the left of the new parent. -/
def incorpBinGo (lvl : Nat) (binops : List String) :
    Nat → Nat → List AstNode → Except SyntaxError (List AstNode)
  | 0, _, _ => .error fuelError
  | fuel + 1, i, tree =>
      let node := tree.getD i dummyNode
      if node.token.type_ = .binaryOperator && binops.contains node.token.content_to_string
      then
        if i = 0 then
          .error ⟨"Binary operator \x27" ++ node.token.content_to_string ++
            "\x27 is missing a left-hand operand", node.token.position⟩
        else if i + 1 ≥ tree.length then
          .error ⟨"Binary operator \x27" ++ node.token.content_to_string ++
            "\x27 is missing a right-hand operand", node.token.position⟩
        else
          let right := tree.getD (i + 1) dummyNode
          let leftd := tree.getD (i - 1) dummyNode
          let tree1 := (tree.eraseIdx (i + 1)).eraseIdx (i - 1)
          let subtree := (Ast.fromVec RF [leftd, right]).relevel_from RF (lvl + 1)
          let j := i - 1
          let tree2 := tree1.set j ((tree1.getD j dummyNode).set_subtree subtree)
          if j = 0 then .ok tree2 else incorpBinGo lvl binops fuel (j - 1) tree2
      else
        if i = 0 then .ok tree else incorpBinGo lvl binops fuel (i - 1) tree

/-- `parser.rs` `Parser::_incorporate_binary_op_set`. -/
def incorporate_binary_op_set (tree : Ast) (binops : List String) : Except SyntaxError Ast :=
  if tree.vec.length < 1 then .ok tree
  else
    match incorpBinGo tree.level binops (tree.vec.length + 1) (tree.vec.length - 1) tree.vec
    with
    | .ok v => .ok ⟨v, tree.level⟩
    | .error e => .error e

/-- `parser.rs` `Parser::_incorporate_binary_ops`: fold every precedence tier
in order. -/
def incorporate_binary_ops (tree : Ast) : Except SyntaxError Ast :=
  patterns.BINARY_OPERATOR_PRECEDENCE.foldl
    (fun acc ops =>
      match acc with
      | .error e => .error e
      | .ok t => incorporate_binary_op_set t ops)
    (.ok tree)

/-- `parser.rs` `Parser::incorporate_operands`. -/
def incorporate_operands (tree : Ast) : Except SyntaxError Ast :=
  match incorporate_factorials tree with
  | .error e => .error e
  | .ok t1 =>
      match incorporate_unary_ops_and_funcs t1 with
      | .error e => .error e
      | .ok t2 => incorporate_binary_ops t2

/-- The `Expression`-recursion loop of `parser.rs`
`Parser::_parse_recursively`: every `Expression` node's raw inner text is
parsed at level + 1 (position offset one past the opening parenthesis) and
attached as its subtree. `f` is the recursive parse at the next depth. -/
def recurseExprsGo (f : List Char → Nat → Nat → Except SyntaxError Ast) (line lvl : Nat) :
    List AstNode → Except SyntaxError (List AstNode)
  | [] => .ok []
  | n :: ns =>
      if n.token.type_ = .expression then
        match f n.token.content line (n.token.position.chr + 1) with
        | .error e => .error e
        | .ok sub =>
            match recurseExprsGo f line lvl ns with
            | .error e => .error e
            | .ok rest => .ok (n.set_subtree sub :: rest)
      else
        match recurseExprsGo f line lvl ns with
        | .error e => .error e
        | .ok rest => .ok (n :: rest)

/-- `parser.rs` `Parser::_parse_recursively`: tokenize, recurse into
parenthesized spans, disambiguate, insert implicit multiplications and the
implicit `mem 0` call, then fold operands. `depth` bounds the parenthesis
nesting depth (each recursive call parses a strictly shorter span). -/
def parseRecursively : Nat → List Char → Nat → Nat → Nat → Except SyntaxError Ast
  | 0, _, _, _, _ => .error fuelError
  | depth + 1, input, line, chr, lvl =>
      match tokenizeGo line chr (input.length + 1) input 0 with
      | .error e => .error e
      | .ok nodes =>
          match recurseExprsGo (fun inp l c => parseRecursively depth inp l c (lvl + 1))
              line lvl nodes with
          | .error e => .error e
          | .ok nodes1 =>
              match disambiguate_operators ⟨nodes1, lvl⟩ with
              | .error e => .error e
              | .ok t1 =>
                  let t2 := expose_implicit_multiplications t1
                  let t3 := expose_implicit_mem0_call t2
                  incorporate_operands t3

/-- `parser.rs` `Parser::parse` on a fresh parser (`self.ast = Ast::new()`,
level 0). -/
def parse (input : String) (line chr : Nat) : Except SyntaxError Ast :=
  parseRecursively (input.toList.length + 1) input.toList line chr 0

end Parser

/-! ## Evaluator (`evaluator.rs`)

`evaluator.rs` belongs to the newer source generation: it reads a node's
children through `node.subtree` / `node.has_children()`; on the `ast.rs` node
shape these are the subtree's node list (empty when there is no subtree).
Identifier lookup goes through `environment.variables.get`, modelled as a
lookup function `vars`. Rust panics (`panic!` for the internal-consistency
arity checks, `todo!()` for the unimplemented binary paths, `.unwrap()`) are
`Res.panic`. -/

namespace Evaluator

/-- Attach an error's position, as `unwrap_or_propagate!(…, position: node.token.position)`
does around every helper call in `evaluate_node`. -/
def withPos (p : Position) : Res TCalcError AstNode → Res TCalcError AstNode
  | .err e => .err ⟨e.msg, e.kind, p⟩
  | r => r

/-- Replace a node's resolved value (the `node.value = Some(v)` mutation). -/
def setValue (n : AstNode) (children : List AstNode) (v : Value) : AstNode :=
  .mk n.token n.hasSub n.sublevel children (some v)

/-- `evaluator.rs` `Evaluator::_evaluate_numeral`. -/
def evaluate_numeral (node : AstNode) : Res TCalcError AstNode :=
  match Value.from_str node.token.content Position.default with
  | .ok v => .ok (setValue node node.children v)
  | .error e => .err ⟨e.msg, .syntaxError, node.token.position⟩

/-- `evaluator.rs` `Evaluator::_evaluate_variable`. -/
def evaluate_variable (vars : String → Option Value) (node : AstNode) :
    Res TCalcError AstNode :=
  let identifier := node.token.content_to_string
  match vars identifier with
  | some v => .ok (setValue node node.children v)
  | none =>
      .err ⟨"The variable \"" ++ identifier ++ "\" is undefined", .syntaxError,
        node.token.position⟩

/-- `evaluator.rs` `Evaluator::_evaluate_unary_operator`: the operand is the
single (already evaluated) child's value (`.unwrap()` — panic when absent). -/
def evaluate_unary_operator (node : AstNode) (children : List AstNode) :
    Res TCalcError AstNode :=
  match (children.getD 0 Parser.dummyNode).value with
  | none => .panic "unwrap on None operand value"
  | some operand =>
      let operator := node.token.content_to_string
      if operator = "+" then .ok (setValue node children operand.unary_pos)
      else if operator = "-" then
        match operand.unary_neg with
        | .ok v => .ok (setValue node children v)
        | .err e => nomatch e
        | .panic m => .panic m
      else if operator = "!" then
        match operand.factorial with
        | .ok v => .ok (setValue node children v)
        | .err e => .err ⟨e.msg, .invalidOperationError, Position.default⟩
        | .panic m => .panic m
      else if operator = "¬" then .ok (setValue node children operand.logical_neg)
      else if operator = "~" then
        match operand.bitwise_neg with
        | .ok v => .ok (setValue node children v)
        | .error e => .err ⟨e.msg, .conversionError, Position.default⟩
      else
        .err ⟨"The operator \"" ++ operator ++ "\" is undefined", .syntaxError,
          node.token.position⟩

/-- `evaluator.rs` `Evaluator::_evaluate_unary_function_call`. Of the builtin
names, `not` maps to `Value::logical_neg`; `abs` and `sin` call `Value`
methods that are not present in the `values.rs` under verification (and `sin`
ends in `.unwrap()`), so they are modelled as aborts; every other name is the
undefined-function error. -/
def evaluate_unary_function_call (node : AstNode) (children : List AstNode) :
    Res TCalcError AstNode :=
  match (children.getD 0 Parser.dummyNode).value with
  | none => .panic "unwrap on None operand value"
  | some operand =>
      let func_identifier := node.token.content_to_string
      if func_identifier = "abs" then .panic "Value::abs not modelled (absent from values.rs)"
      else if func_identifier = "not" then .ok (setValue node children operand.logical_neg)
      else if func_identifier = "sin" then
        .panic "Value::sin not modelled (absent from values.rs)"
      else
        .err ⟨"The function \"" ++ func_identifier ++ "\" is undefined", .syntaxError,
          Position.default⟩

/-- `evaluator.rs` `Evaluator::_evaluate_binary_operator` — the body is
`todo!()`, which aborts with "not yet implemented". -/
def evaluate_binary_operator (_node : AstNode) (_children : List AstNode) :
    Res TCalcError AstNode :=
  .panic "not yet implemented"

/-- `evaluator.rs` `Evaluator::_evaluate_binary_function_call` — `todo!()`. -/
def evaluate_binary_function_call (_node : AstNode) (_children : List AstNode) :
    Res TCalcError AstNode :=
  .panic "not yet implemented"

/-- Evaluate a node list in order with the supplied node evaluator
(the `for child in node.subtree.iter_mut()` loop). -/
def evalChildrenGo (f : AstNode → Res TCalcError AstNode) :
    List AstNode → Res TCalcError (List AstNode)
  | [] => .ok []
  | n :: ns =>
      match f n with
      | .ok n1 =>
          match evalChildrenGo f ns with
          | .ok rest => .ok (n1 :: rest)
          | r => r
      | .err e => .err e
      | .panic m => .panic m

/-- `evaluator.rs` `Evaluator::evaluate_node`: idempotence guard, terminal
dispatch, recursive child evaluation, the internal-consistency arity panics,
then unary/binary dispatch. `fuel` bounds the recursion depth (the node's
depth); exhaustion aborts and is never reached below. -/
def evaluateNodeF (vars : String → Option Value) : Nat → AstNode → Res TCalcError AstNode
  | 0, _ => .panic "internal: fuel exhausted"
  | fuel + 1, node =>
      if node.value.isSome then .ok node
      else if node.token.type_.is_terminal then
        if node.token.type_.is_numeral then
          withPos node.token.position (evaluate_numeral node)
        else if node.token.type_.is_variable_identifier then
          withPos node.token.position (evaluate_variable vars node)
        else .ok node
      else
        match evalChildrenGo (evaluateNodeF vars fuel) node.children with
        | .err e => .err e
        | .panic m => .panic m
        | .ok children =>
            if children.isEmpty then
              .panic "Attempting to evaluate child-less non-terminal AstNode"
            else if node.token.type_.is_unary then
              if !(children.length = 1) then
                .panic ("Attempting to evaluate unary operation that has " ++
                  toString children.length ++ " children (expected 1)")
              else if node.token.type_.is_operator then
                withPos node.token.position (evaluate_unary_operator node children)
              else
                withPos node.token.position (evaluate_unary_function_call node children)
            else
              if !(children.length = 2) then
                .panic ("Attempting to evaluate binary operation that has " ++
                  toString children.length ++ " children (expected 2)")
              else if node.token.type_.is_operator then
                withPos node.token.position (evaluate_binary_operator node children)
              else
                withPos node.token.position (evaluate_binary_function_call node children)

/-- `evaluator.rs` `Evaluator::evaluate`: evaluate every top-level node in
order. -/
def evaluate (vars : String → Option Value) (fuel : Nat) (ast : Ast) :
    Res TCalcError Ast :=
  match evalChildrenGo (evaluateNodeF vars fuel) ast.vec with
  | .ok vec => .ok ⟨vec, ast.level⟩
  | .err e => .err e
  | .panic m => .panic m

end Evaluator

/-! ## Readonly value store (spec-modelled) -/

/-- Modelled from the spec: the readonly-aware `ValueStore` API
(`set(id, value) -> bool`, `set_readonly(id, value) -> bool`, readonly key
set, lowercase normalisation at every API boundary; spec §4.4) is not present
under `src/` — `environment.rs` calls `set_readonly` but the `values.rs` under
verification predates it and has no readonly support. Definition follows the
spec's words: keys normalise to lowercase at the boundary, `set` returns
`false` and performs no mutation when the key is readonly, and
`set_readonly` behaves like `set` and additionally marks the key readonly on
success. -/
structure ValueStoreR where
  map : String → Option Value
  protected_keys : List String
  readonly_keys : List String

namespace ValueStoreR

/-- Modelled from the spec: `get(id) -> Option<Value>`, case-insensitive. -/
def get (s : ValueStoreR) (id : String) : Option Value :=
  s.map id.toLower

/-- Modelled from the spec: `set(id, value) -> bool` — `false` and no
mutation when `id` is readonly. -/
def set (s : ValueStoreR) (id : String) (v : Value) : Bool × ValueStoreR :=
  let k := id.toLower
  if s.readonly_keys.contains k then (false, s)
  else
    (true, ⟨fun q => if q = k then some v else s.map q, s.protected_keys, s.readonly_keys⟩)

/-- Modelled from the spec: `set_readonly(id, value) -> bool` — as `set`, and
additionally marks the key readonly on success. -/
def set_readonly (s : ValueStoreR) (id : String) (v : Value) : Bool × ValueStoreR :=
  match s.set id v with
  | (false, s1) => (false, s1)
  | (true, s1) => (true, ⟨s1.map, s1.protected_keys, id.toLower :: s1.readonly_keys⟩)

end ValueStoreR

/-! ## Tree shapes

Erasure of an `Ast` to its operator/operand nesting structure: positions,
implicit flags, levels and resolved values are dropped, and an `Expression`
wrapper node with exactly one child is transparent (a parenthesized
sub-expression folds to a single root). Used to compare the grouping of
`a * b / c` against `a * (b / c)`. -/

inductive Shape where
  | mk (tt : TokenType) (content : List Char) (children : List Shape)

def Shape.content : Shape → List Char
  | .mk _ c _ => c

def shapeOfF : Nat → AstNode → Shape
  | 0, _ => .mk .integer [] []
  | fuel + 1, n =>
      if n.token.type_ = .expression ∧ n.children.length = 1 then
        shapeOfF fuel (n.children.getD 0 Parser.dummyNode)
      else
        .mk n.token.type_ n.token.content (n.children.map (fun m => shapeOfF fuel m))

/-- Shapes of a parse result (`none` when parsing fails). -/
def parseShape (s : String) : Option (List Shape) :=
  match Parser.parse s 0 0 with
  | .ok t => some (t.vec.map (fun n => shapeOfF 100 n))
  | .error _ => none

/-! ## Concrete trees used by the scenario claims -/

/-- The tree `parse "2+3" 0 0` produces: a `+` binary root with Integer
leaves `2` and `3`. -/
def tree_2plus3 : Ast :=
  ⟨[AstNode.mk ⟨.binaryOperator, ['+'], ⟨0, 1⟩, false⟩ true 1
    [AstNode.mk ⟨.integer, ['2'], ⟨0, 0⟩, false⟩ false 0 [] none,
     AstNode.mk ⟨.integer, ['3'], ⟨0, 2⟩, false⟩ false 0 [] none] none], 0⟩

/-- The tree `parse "(2)" 0 0` produces: an `Expression` wrapper with the
Integer leaf `2` as its single child. -/
def tree_paren2 : Ast :=
  ⟨[AstNode.mk ⟨.expression, ['2'], ⟨0, 0⟩, false⟩ true 1
    [AstNode.mk ⟨.integer, ['2'], ⟨0, 1⟩, false⟩ false 0 [] none] none], 0⟩

/-- The tree `parse "0b101" 0 0` produces: a single Bitseq leaf. -/
def tree_0b101 : Ast :=
  ⟨[AstNode.mk ⟨.bitseq, "0b101".toList, ⟨0, 0⟩, false⟩ false 0 [] none], 0⟩

/-- The tree `parse "0!" 0 0` produces: a postfix `!` root whose single child
is the Integer leaf `0`. -/
def tree_0bang : Ast :=
  ⟨[AstNode.mk ⟨.unaryOperator, ['!'], ⟨0, 1⟩, false⟩ true 1
    [AstNode.mk ⟨.integer, ['0'], ⟨0, 0⟩, false⟩ false 0 [] none] none], 0⟩

/-- The tree `parse "100!" 0 0` produces: a postfix `!` root whose single
child is the Integer leaf `100`. -/
def tree_100bang : Ast :=
  ⟨[AstNode.mk ⟨.unaryOperator, ['!'], ⟨0, 3⟩, false⟩ true 1
    [AstNode.mk ⟨.integer, "100".toList, ⟨0, 0⟩, false⟩ false 0 [] none] none], 0⟩

/-! ## Helper lemmas -/

theorem relevelNodeF_noSub (fuel lv : Nat) (n : AstNode) (h : n.hasSub = false) :
    relevelNodeF fuel lv n = n := by
  cases fuel with
  | zero => rfl
  | succ k => simp [relevelNodeF, h]

theorem relevelNodeF_succ_sub (fuel lv : Nat) (t : Token) (sl : Nat)
    (ch : List AstNode) (v : Option Value) :
    relevelNodeF (fuel + 1) lv (.mk t true sl ch v) =
      .mk t true lv (ch.map (relevelNodeF fuel (lv + 1))) v := by
  simp [relevelNodeF, AstNode.hasSub, AstNode.token, AstNode.children, AstNode.value]

theorem RF_succ : Parser.RF = 9999 + 1 := rfl

/-- The factorial loop of `integers.rs` computes the factorial. -/
theorem factLoop_eq (k : Nat) : Integers.factLoop k = (Nat.factorial k : Int) := by
  induction k with
  | zero => rfl
  | succ m ih =>
      rw [Integers.factLoop, ih, Nat.factorial_succ]
      push_cast
      ring

/-- The bit mask loop of `bitseqs.rs` `neg_mut` builds the low-`n` ones
mask. -/
theorem maskAux_eq (n : Nat) : Bitseq.maskAux n = 2 ^ n - 1 := by
  induction n with
  | zero => rfl
  | succ m ih =>
      rw [Bitseq.maskAux, ih]
      apply Nat.eq_of_testBit_eq
      intro j
      rw [Nat.testBit_or, Nat.testBit_two_pow_sub_one, Nat.testBit_two_pow_sub_one]
      rw [Nat.shiftLeft_eq, one_mul, Nat.testBit_two_pow]
      rcases Nat.lt_trichotomy j m with hj | hj | hj
      · simp [hj, Nat.lt_succ_of_lt hj, Nat.ne_of_gt hj]
      · simp [hj, Nat.lt_irrefl, Nat.lt_succ_self]
      · simp [Nat.lt_asymm hj, Nat.le_of_lt hj, Nat.not_lt.mpr (Nat.succ_le_of_lt hj),
          Nat.ne_of_lt hj]

/-- `bitLenAux` is bounded by the bit width of its argument. -/
theorem bitLenAux_le (fuel : Nat) : ∀ (v k : Nat), v < 2 ^ k → k ≤ fuel →
    Bitseq.bitLenAux fuel v ≤ k := by
  induction fuel with
  | zero => intro v k _ hk; simp [Bitseq.bitLenAux]
  | succ f ih =>
      intro v k hv hk
      rw [Bitseq.bitLenAux]
      by_cases h0 : v = 0
      · simp [h0]
      · simp only [h0, if_false]
        have hk1 : 1 ≤ k := by
          by_contra hlt
          have : k = 0 := by omega
          subst this
          simp at hv
          omega
        have hdiv : v / 2 < 2 ^ (k - 1) := by
          have h2 : 2 ^ k = 2 ^ (k - 1) * 2 := by
            rw [← pow_succ]
            congr 1
            omega
          omega
        have := ih (v / 2) (k - 1) hdiv (by omega)
        omega

theorem buf_mem (initial internal : List Char) (c x : Char) (rest : List Char)
    (hc : initial.contains c = true)
    (hx : x ∈ c :: Parser.copy_while internal rest) :
    x ∈ initial ∨ x ∈ internal := by
  rcases List.mem_cons.mp hx with h | h
  · subst h
    exact Or.inl (by simpa using hc)
  · right
    have := List.mem_takeWhile_imp h
    simpa using this


theorem buf_no_iI (initial internal : List Char) (c : Char) (rest : List Char)
    (hc : initial.contains c = true)
    (hi1 : ¬('i' ∈ initial)) (hi2 : ¬('i' ∈ internal))
    (hI1 : ¬('I' ∈ initial)) (hI2 : ¬('I' ∈ internal)) :
    ¬('i' ∈ c :: Parser.copy_while internal rest) ∧
    ¬('I' ∈ c :: Parser.copy_while internal rest) := by
  constructor <;> intro hx <;> rcases buf_mem _ _ _ _ _ hc hx with h | h <;>
    first
    | exact hi1 h
    | exact hi2 h
    | exact hI1 h
    | exact hI2 h

theorem tokenizeGo_no_i (fuel : Nat) : ∀ (line chr : Nat) (cs : List Char) (i : Nat)
    (nodes : List AstNode), Parser.tokenizeGo line chr fuel cs i = .ok nodes →
    ∀ n ∈ nodes, ¬(n.token.type_ = .expression) →
      ¬('i' ∈ n.token.content) ∧ ¬('I' ∈ n.token.content) := by
  induction fuel with
  | zero =>
      intro line chr cs i nodes h
      simp [Parser.tokenizeGo] at h
  | succ f ih =>
      intro line chr cs i nodes h
      cases cs with
      | nil =>
          simp only [Parser.tokenizeGo] at h
          cases h
          intro n hn
          simp at hn
      | cons c rest =>
          simp only [Parser.tokenizeGo] at h
          split at h
          · -- whitespace
            exact ih line chr rest (i + 1) nodes h
          · split at h
            · -- open parenthesis
              split at h
              · cases h
              · split at h
                · next heq =>
                    cases h
                    intro n hn hne
                    rcases List.mem_cons.mp hn with rfl | hn
                    · exact absurd rfl hne
                    · exact ih _ _ _ _ _ heq n hn hne
                · cases h
            · split at h
              · -- numeral
                next hcond =>
                  split at h
                  · next heq =>
                      cases h
                      intro n hn hne
                      rcases List.mem_cons.mp hn with rfl | hn
                      · simpa [AstNode.new_from_token, AstNode.token, Token.new] using
                          buf_no_iI _ _ _ _ hcond (by decide) (by decide) (by decide)
                            (by decide)
                      · exact ih _ _ _ _ _ heq n hn hne
                  · cases h
              · split at h
                · -- identifier
                  next hcond =>
                    split at h
                    · next heq =>
                        cases h
                        intro n hn hne
                        rcases List.mem_cons.mp hn with rfl | hn
                        · simpa [AstNode.new_from_token, AstNode.token, Token.new] using
                            buf_no_iI _ _ _ _ hcond (by decide) (by decide) (by decide)
                              (by decide)
                        · exact ih _ _ _ _ _ heq n hn hne
                    · cases h
                · split at h
                  · -- operator
                    next hcond =>
                      split at h
                      · cases h
                      · split at h
                        · next heq =>
                            cases h
                            intro n hn hne
                            rcases List.mem_cons.mp hn with rfl | hn
                            · simpa [AstNode.new_from_token, AstNode.token, Token.new] using
                                buf_no_iI _ _ _ _ hcond (by decide) (by decide) (by decide)
                                  (by decide)
                            · exact ih _ _ _ _ _ heq n hn hne
                        · cases h
                  · split at h
                    · cases h
                    · cases h

set_option maxHeartbeats 1600000 in
/-- One right-to-left pass of `_incorporate_binary_op_set` over the flat
sequence `a ∘₁ b ∘₂ c` (both operators in the tier, `a`/`b`/`c` operand
nodes): the pass folds the rightmost operator first, producing
right-associative grouping `∘₁(a, ∘₂(b, c))`. -/
theorem incorpBinGo_fold5 (lvl : Nat) (ops : List String) (a o1 b o2 c : AstNode)
    (hc : ¬(c.token.type_ = TokenType.binaryOperator ∧ c.token.content_to_string ∈ ops))
    (h1 : o1.token.type_ = TokenType.binaryOperator ∧ o1.token.content_to_string ∈ ops)
    (h2 : o2.token.type_ = TokenType.binaryOperator ∧ o2.token.content_to_string ∈ ops)
    (ha : a.hasSub = false) (hb : b.hasSub = false) (hcs : c.hasSub = false) :
    Parser.incorpBinGo lvl ops 6 4 [a, o1, b, o2, c] =
      .ok [AstNode.mk o1.token true (lvl + 1)
        [a, AstNode.mk o2.token true (lvl + 2) [b, c] o2.value] o1.value] := by
  have hcb : ((c.token.type_ = TokenType.binaryOperator) &&
      ops.contains c.token.content_to_string) = false := by
    cases hval : ((c.token.type_ = TokenType.binaryOperator : Bool) &&
        ops.contains c.token.content_to_string) with
    | false => rfl
    | true =>
        rw [Bool.and_eq_true, decide_eq_true_eq] at hval
        exact absurd ⟨hval.1, by simpa using hval.2⟩ hc
  have h1b : ((o1.token.type_ = TokenType.binaryOperator) &&
      ops.contains o1.token.content_to_string) = true := by simp [h1.1, h1.2]
  have h2b : ((o2.token.type_ = TokenType.binaryOperator) &&
      ops.contains o2.token.content_to_string) = true := by simp [h2.1, h2.2]
  simp only [Parser.incorpBinGo, List.getD_cons_succ, List.getD_cons_zero, hcb, h2b, h1b,
    Bool.false_eq_true, if_false, List.length_cons, List.length_nil]
  norm_num [List.eraseIdx, Ast.fromVec, Ast.push, Ast.new, AstNode.has_subtree,
    relevelNodeF_noSub, ha, hb, hcs, Ast.relevel_from, AstNode.set_subtree,
    AstNode.new_from_token, List.set]
  rw [RF_succ]
  simp only [AstNode.hasSub, if_pos, if_true, relevelNodeF_succ_sub, List.map_cons,
    List.map_nil]
  simp [relevelNodeF_noSub, ha, hb, hcs, h1]

/-! ## Claims -/

/-- C1 (code bug in the evaluator): parsing `"2+3"` yields the single root
`BinaryOperator +` with Integer leaves `2` and `3` — but evaluating that tree
does not attach `Integer(5)`: `_evaluate_binary_operator` is `todo!()`, so
evaluation aborts with "not yet implemented" instead of returning a value. -/
theorem claim_C1_scenario_2plus3 :
    Parser.parse "2+3" 0 0 = .ok tree_2plus3 ∧
    Evaluator.evaluate (fun _ => none) 100 tree_2plus3 = .panic "not yet implemented" :=
  ⟨rfl, rfl⟩

/-- C2 (code bug in the evaluator): the internal-consistency panic branches
are reachable on parser-produced trees — `evaluate_node` has no case for
`Expression` wrapper nodes, so the accepted input `"(2)"` parses fine and then
falls into the binary-arity branch with 1 child and panics. -/
theorem claim_C2_arity_panic_reachable :
    Parser.parse "(2)" 0 0 = .ok tree_paren2 ∧
    Evaluator.evaluate (fun _ => none) 100 tree_paren2 =
      .panic "Attempting to evaluate binary operation that has 1 children (expected 2)" :=
  ⟨rfl, rfl⟩

/-- C3 counterexample: `"(i)"` contains the letter `i` outside any numeral
literal, yet `tokenize` accepts it — the parenthesized span is consumed raw
into an `Expression` token, so tokenize does not reject every input
containing `i`. -/
theorem claim_C3_counterexample :
    Parser.tokenize "(i)" 0 0 =
      .ok [AstNode.new_from_token ⟨.expression, ['i'], ⟨0, 0⟩, false⟩] := rfl

/-- C3 (amended): the identifier character sets omit `i`/`I` (listing `o`/`O`
twice instead); no non-`Expression` token `tokenize` ever produces contains
`i` or `I`; and identifier-like words containing `i` — in particular `sin`
and `pi` — are rejected with an "Unknown character 'i'" syntax error, so they
can never be tokenized as identifier tokens. (Inside parenthesized spans the
letter is deferred to the recursive parse of the `Expression` token.) -/
theorem claim_C3_identifier_charset_omits_i :
    (¬('i' ∈ patterns.IDENTIFIER_INITIAL_CHARS) ∧
     ¬('I' ∈ patterns.IDENTIFIER_INITIAL_CHARS) ∧
     ¬('i' ∈ patterns.IDENTIFIER_INTERNAL_CHARS) ∧
     ¬('I' ∈ patterns.IDENTIFIER_INTERNAL_CHARS) ∧
     patterns.IDENTIFIER_INITIAL_CHARS.count 'o' = 2 ∧
     patterns.IDENTIFIER_INITIAL_CHARS.count 'O' = 2) ∧
    (∀ (fuel line chr : Nat) (cs : List Char) (i : Nat) (nodes : List AstNode),
      Parser.tokenizeGo line chr fuel cs i = .ok nodes →
      ∀ n ∈ nodes, ¬(n.token.type_ = .expression) →
        ¬('i' ∈ n.token.content) ∧ ¬('I' ∈ n.token.content)) ∧
    Parser.tokenize "sin" 0 0 = .error ⟨"Unknown character \x27i\x27", ⟨0, 1⟩⟩ ∧
    Parser.tokenize "pi" 0 0 = .error ⟨"Unknown character \x27i\x27", ⟨0, 1⟩⟩ :=
  ⟨by decide, fun fuel => tokenizeGo_no_i fuel, rfl, rfl⟩

theorem claim_C3_witness :
    ¬('i' ∈ (AstNode.new_from_token
      ⟨.variableIdentifier, ['s', 'o'], ⟨0, 0⟩, false⟩).token.content) ∧
    ¬('I' ∈ (AstNode.new_from_token
      ⟨.variableIdentifier, ['s', 'o'], ⟨0, 0⟩, false⟩).token.content) :=
  claim_C3_identifier_charset_omits_i.2.1 4 0 0 "so".toList 0
    [AstNode.new_from_token ⟨.variableIdentifier, ['s', 'o'], ⟨0, 0⟩, false⟩] rfl
    (AstNode.new_from_token ⟨.variableIdentifier, ['s', 'o'], ⟨0, 0⟩, false⟩)
    (by simp) (by decide)

set_option maxHeartbeats 1600000 in
theorem shape_234 :
    parseShape "2*3/4" =
      some [.mk .binaryOperator ['*']
        [.mk .integer ['2'] [],
         .mk .binaryOperator ['/'] [.mk .integer ['3'] [], .mk .integer ['4'] []]]] := rfl

set_option maxHeartbeats 1600000 in
theorem shape_2_34 :
    parseShape "2*(3/4)" =
      some [.mk .binaryOperator ['*']
        [.mk .integer ['2'] [],
         .mk .binaryOperator ['/'] [.mk .integer ['3'] [], .mk .integer ['4'] []]]] := rfl

set_option maxHeartbeats 1600000 in
theorem shape_23_4 :
    parseShape "(2*3)/4" =
      some [.mk .binaryOperator ['/']
        [.mk .binaryOperator ['*'] [.mk .integer ['2'] [], .mk .integer ['3'] []],
         .mk .integer ['4'] []]] := rfl

set_option maxHeartbeats 1600000 in
/-- C4: within one precedence tier the right-to-left pass folds
right-associatively: the flat symbolic sequence `a ∘₁ b ∘₂ c` (with `∘₁`, `∘₂`
two binary operators of the tier) incorporates to `∘₁(a, ∘₂(b, c))`, and the
concrete inputs `2*3/4` and `2*(3/4)` parse to the same shape — which is not
the left-associative shape of `(2*3)/4`. -/
theorem claim_C4_same_tier_right_assoc :
    (∀ (lvl : Nat) (ops : List String) (a o1 b o2 c : AstNode),
      ¬(c.token.type_ = TokenType.binaryOperator ∧ c.token.content_to_string ∈ ops) →
      o1.token.type_ = TokenType.binaryOperator ∧ o1.token.content_to_string ∈ ops →
      o2.token.type_ = TokenType.binaryOperator ∧ o2.token.content_to_string ∈ ops →
      a.hasSub = false → b.hasSub = false → c.hasSub = false →
      Parser.incorporate_binary_op_set ⟨[a, o1, b, o2, c], lvl⟩ ops =
        .ok ⟨[AstNode.mk o1.token true (lvl + 1)
          [a, AstNode.mk o2.token true (lvl + 2) [b, c] o2.value] o1.value], lvl⟩) ∧
    ["*", "/", "%"] ∈ patterns.BINARY_OPERATOR_PRECEDENCE ∧
    parseShape "2*3/4" = parseShape "2*(3/4)" ∧
    parseShape "2*3/4" =
      some [.mk .binaryOperator ['*']
        [.mk .integer ['2'] [],
         .mk .binaryOperator ['/'] [.mk .integer ['3'] [], .mk .integer ['4'] []]]] ∧
    parseShape "(2*3)/4" =
      some [.mk .binaryOperator ['/']
        [.mk .binaryOperator ['*'] [.mk .integer ['2'] [], .mk .integer ['3'] []],
         .mk .integer ['4'] []]] ∧
    ¬(parseShape "2*3/4" = parseShape "(2*3)/4") := by
  refine ⟨?_, by decide, shape_234.trans shape_2_34.symm, shape_234, shape_23_4, ?_⟩
  · intro lvl ops a o1 b o2 c hc h1 h2 ha hb hcs
    have core := incorpBinGo_fold5 lvl ops a o1 b o2 c hc h1 h2 ha hb hcs
    simp only [Parser.incorporate_binary_op_set, List.length_cons, List.length_nil]
    norm_num [core]
  · intro h
    rw [shape_234, shape_23_4] at h
    simp +decide [Shape.mk.injEq] at h

set_option maxHeartbeats 1600000 in
theorem claim_C4_witness :
    Parser.incorporate_binary_op_set
      ⟨[AstNode.new_from_token ⟨.integer, ['2'], ⟨0, 0⟩, false⟩,
        AstNode.new_from_token ⟨.binaryOperator, ['*'], ⟨0, 1⟩, false⟩,
        AstNode.new_from_token ⟨.integer, ['3'], ⟨0, 2⟩, false⟩,
        AstNode.new_from_token ⟨.binaryOperator, ['/'], ⟨0, 3⟩, false⟩,
        AstNode.new_from_token ⟨.integer, ['4'], ⟨0, 4⟩, false⟩], 0⟩ ["*", "/", "%"] =
      .ok ⟨[AstNode.mk ⟨.binaryOperator, ['*'], ⟨0, 1⟩, false⟩ true 1
        [AstNode.new_from_token ⟨.integer, ['2'], ⟨0, 0⟩, false⟩,
         AstNode.mk ⟨.binaryOperator, ['/'], ⟨0, 3⟩, false⟩ true 2
           [AstNode.new_from_token ⟨.integer, ['3'], ⟨0, 2⟩, false⟩,
            AstNode.new_from_token ⟨.integer, ['4'], ⟨0, 4⟩, false⟩] none] none], 0⟩ :=
  claim_C4_same_tier_right_assoc.1 0 ["*", "/", "%"]
    (AstNode.new_from_token ⟨.integer, ['2'], ⟨0, 0⟩, false⟩)
    (AstNode.new_from_token ⟨.binaryOperator, ['*'], ⟨0, 1⟩, false⟩)
    (AstNode.new_from_token ⟨.integer, ['3'], ⟨0, 2⟩, false⟩)
    (AstNode.new_from_token ⟨.binaryOperator, ['/'], ⟨0, 3⟩, false⟩)
    (AstNode.new_from_token ⟨.integer, ['4'], ⟨0, 4⟩, false⟩)
    (by decide) (by decide) (by decide) rfl rfl rfl

/-- C5 counterexample: `ValueStore::set`/`get` use the key verbatim — after
`set("X", v)`, `get("x")` returns `none`, not `v`: the store performs no
lowercase normalisation. -/
theorem claim_C5_counterexample :
    (ValueStore.default.set "X" (Value.from_integer 1)).get "x" = none ∧
    (ValueStore.default.set "X" (Value.from_integer 1)).get "X" =
      some (Value.from_integer 1) :=
  ⟨rfl, rfl⟩

/-- C5 (amended): the `values.rs` `ValueStore` is case-sensitive: keys are
stored and looked up verbatim — after `set(id, v)`, `get(id)` returns `v` and
every other key's binding is unchanged; no normalisation happens at the API
boundary. -/
theorem claim_C5_case_sensitive_store :
    ∀ (s : ValueStore) (id : String) (v : Value),
      (s.set id v).get id = some v ∧
      (∀ id2 : String, ¬(id2 = id) → (s.set id v).get id2 = s.get id2) := by
  intro s id v
  constructor
  · simp [ValueStore.set, ValueStore.get]
  · intro id2 hne
    simp [ValueStore.set, ValueStore.get, hne]

theorem claim_C5_witness :
    (ValueStore.default.set "X" (Value.from_integer 1)).get "X" =
        some (Value.from_integer 1) ∧
    (ValueStore.default.set "X" (Value.from_integer 1)).get "y" =
      ValueStore.default.get "y" :=
  ⟨(claim_C5_case_sensitive_store ValueStore.default "X" (Value.from_integer 1)).1,
   (claim_C5_case_sensitive_store ValueStore.default "X" (Value.from_integer 1)).2 "y"
     (by decide)⟩

/-- C6 (spec-modelled): on the readonly-aware store, `set` on a readonly key
returns `false` and leaves the whole store unchanged (so does
`set_readonly`); on a non-readonly key both succeed, store the value under
the lowercased key, and `set_readonly` additionally marks the key readonly
while binding the same value `set` would. -/
theorem claim_C6_readonly_semantics :
    ∀ (s : ValueStoreR) (id : String) (v : Value),
      (s.readonly_keys.contains id.toLower = true →
        s.set id v = (false, s) ∧ s.set_readonly id v = (false, s)) ∧
      (s.readonly_keys.contains id.toLower = false →
        (s.set id v).1 = true ∧
        (s.set id v).2.get id = some v ∧
        (s.set_readonly id v).1 = true ∧
        (s.set_readonly id v).2.get id = some v ∧
        (s.set_readonly id v).2.readonly_keys.contains id.toLower = true ∧
        (s.set_readonly id v).2.map = (s.set id v).2.map) := by
  intro s id v
  constructor
  · intro hro
    have hmem : id.toLower ∈ s.readonly_keys := by simpa using hro
    constructor
    · simp [ValueStoreR.set, hmem]
    · simp [ValueStoreR.set_readonly, ValueStoreR.set, hmem]
  · intro hro
    have hmem : ¬(id.toLower ∈ s.readonly_keys) := by simpa using hro
    refine ⟨?_, ?_, ?_, ?_, ?_, ?_⟩ <;>
      simp [ValueStoreR.set, ValueStoreR.set_readonly, ValueStoreR.get, hmem]

/-- C7 (code bug in the wired factorial path): the postfix `!` operator
dispatches through `_evaluate_unary_operator` to the legacy `values.rs`
`Value::factorial`, whose Integer branch folds `(1..n).try_fold(n,
checked_mul)` — for `n = 0` the range is empty and the fold returns its start
value, so `0!` evaluates to `Integer(0)`, not `Integer(1)` (`5!` does give
`120`), and its over-ceiling error is "Factorial too large to fit Integer",
recommending no gamma approximation. The behaviour the claim describes
(`0! = 1`, fixed ceiling 97, gamma recommendation) is implemented by
`integers.rs` `Integer::factorial`, which no code calls. -/
theorem claim_C7_factorial_wired_path :
    Parser.parse "0!" 0 0 = .ok tree_0bang ∧
    Evaluator.evaluate (fun _ => none) 100 tree_0bang =
      .ok ⟨[AstNode.mk ⟨.unaryOperator, ['!'], ⟨0, 1⟩, false⟩ true 1
        [AstNode.mk ⟨.integer, ['0'], ⟨0, 0⟩, false⟩ false 0 []
          (some (Value.from_integer 0))]
        (some (Value.from_integer 0))], 0⟩ ∧
    (Value.from_integer 0).factorial = .ok (Value.from_integer 0) ∧
    (Value.from_integer 5).factorial = .ok (Value.from_integer 120) ∧
    Parser.parse "100!" 0 0 = .ok tree_100bang ∧
    Evaluator.evaluate (fun _ => none) 100 tree_100bang =
      .err ⟨"Factorial too large to fit Integer", .invalidOperationError, ⟨0, 3⟩⟩ ∧
    Integers.Integer.factorial ⟨0⟩ = .ok ⟨1⟩ ∧
    Integers.Integer.factorial ⟨100⟩ =
      .error ⟨"Factorial of value > 97 exceeds size of Integer type, consider approximating the factorial via `gamma (x + 1)`"⟩ :=
  ⟨rfl, rfl, rfl, rfl, rfl, rfl, rfl, rfl⟩

/-- C8: Bitseq/Integer round trip with `Integer = i128`: every `i` with
`0 ≤ i ≤ 2^127 - 1` converts to a Bitseq and back to the same `i`; every
other representable `i128` (i.e. every negative one) is rejected by the
Bitseq conversion. -/
theorem claim_C8_roundtrip :
    (∀ i : Int, 0 ≤ i → i ≤ 2 ^ 127 - 1 →
      Bitseq.tryFromInteger i = .ok (Bitseq.fromBitseqT i.toNat) ∧
      (Bitseq.fromBitseqT i.toNat).tryIntoInteger = .ok i) ∧
    (∀ i : Int, i < 0 →
      Bitseq.tryFromInteger i = .error ⟨"Cannot convert negative Integer to Bitseq"⟩) := by
  constructor
  · intro i h0 hmax
    constructor
    · rw [Bitseq.tryFromInteger, if_neg (not_lt.mpr h0)]
    · have hle : i.toNat ≤ 2 ^ 127 - 1 := by omega
      simp only [Bitseq.tryIntoInteger, Bitseq.fromBitseqT]
      rw [if_pos hle, Int.toNat_of_nonneg h0]
  · intro i hneg
    rw [Bitseq.tryFromInteger, if_pos hneg]

theorem claim_C8_witness :
    (Bitseq.tryFromInteger 5 = .ok (Bitseq.fromBitseqT (5 : Int).toNat) ∧
      (Bitseq.fromBitseqT (5 : Int).toNat).tryIntoInteger = .ok 5) ∧
    Bitseq.tryFromInteger (-7) = .error ⟨"Cannot convert negative Integer to Bitseq"⟩ :=
  ⟨claim_C8_roundtrip.1 5 (by decide) (by decide), claim_C8_roundtrip.2 (-7) (by decide)⟩

/-- C9: `"0b101"` parses to a single Bitseq token which the evaluator values
as the length-3 bit pattern 5; `~` on it gives the Bitseq of the same length 3 with value 2;
in general `neg_mut` keeps the length, xors with the low-`len` ones mask
(flipping exactly the low `len` bits and touching no bit above `len`), and
`bitwise_neg` fails on every non-Bitseq operand. -/
theorem claim_C9_bitwise_negation :
    Parser.parse "0b101" 0 0 = .ok tree_0b101 ∧
    Evaluator.evaluate (fun _ => none) 100 tree_0b101 =
      .ok ⟨[AstNode.mk ⟨.bitseq, "0b101".toList, ⟨0, 0⟩, false⟩ false 0 []
        (some (Value.from_bitseq ⟨5, 3⟩))], 0⟩ ∧
    Value.from_str "0b101".toList Position.default = .ok (Value.from_bitseq ⟨5, 3⟩) ∧
    (Value.from_bitseq ⟨5, 3⟩).bitwise_neg = .ok (Value.from_bitseq ⟨2, 3⟩) ∧
    (∀ b : Bitseq,
      b.neg_mut.len = b.len ∧
      b.neg_mut.value = b.value ^^^ (2 ^ b.len - 1) ∧
      (∀ j, j < b.len → (b.neg_mut.value).testBit j = !(b.value.testBit j)) ∧
      (∀ j, b.len ≤ j → (b.neg_mut.value).testBit j = b.value.testBit j) ∧
      (b.value < 2 ^ b.len → b.neg_mut.value < 2 ^ b.len)) ∧
    (∀ v : Value, ¬(v.type_ = .bitseq) →
      v.bitwise_neg = .error
        ⟨"Cannot apply bitwise negation to a value other than a bit-sequence (Bitseq)"⟩) := by
  refine ⟨rfl, rfl, rfl, rfl, ?_, ?_⟩
  · intro b
    refine ⟨rfl, ?_, ?_, ?_, ?_⟩
    · rw [Bitseq.neg_mut, maskAux_eq]
    · intro j hj
      rw [Bitseq.neg_mut, maskAux_eq]
      rw [Nat.testBit_xor, Nat.testBit_two_pow_sub_one]
      simp [hj]
    · intro j hj
      rw [Bitseq.neg_mut, maskAux_eq]
      rw [Nat.testBit_xor, Nat.testBit_two_pow_sub_one]
      simp [Nat.not_lt.mpr hj]
    · intro hv
      rw [Bitseq.neg_mut, maskAux_eq]
      exact Nat.xor_lt_two_pow hv (by have := Nat.one_le_two_pow (n := b.len); omega)
  · intro v hv
    simp [Value.bitwise_neg, hv]

theorem claim_C9_witness :
    ((Bitseq.mk 5 3).neg_mut.len = (Bitseq.mk 5 3).len ∧
      (Bitseq.mk 5 3).neg_mut.value = (Bitseq.mk 5 3).value ^^^ (2 ^ (Bitseq.mk 5 3).len - 1)) ∧
    (Value.from_integer 7).bitwise_neg = .error
      ⟨"Cannot apply bitwise negation to a value other than a bit-sequence (Bitseq)"⟩ :=
  ⟨⟨(claim_C9_bitwise_negation.2.2.2.2.1 ⟨5, 3⟩).1,
    (claim_C9_bitwise_negation.2.2.2.2.1 ⟨5, 3⟩).2.1⟩,
   claim_C9_bitwise_negation.2.2.2.2.2 (Value.from_integer 7) (by decide)⟩

/-- C10 counterexample: not every constructed Bitseq has width in `1..127`:
`From<u128>` applied to `0` yields width 0 (the bit length of zero), and
`from_str` accepts 128-character strings, yielding width 128. -/
theorem claim_C10_counterexample :
    (Bitseq.fromBitseqT 0).len = 0 ∧
    ¬(1 ≤ (Bitseq.fromBitseqT 0).len) ∧
    Bitseq.from_str (List.replicate 128 '1') = some ⟨2 ^ 128 - 1, 128⟩ ∧
    ¬((Bitseq.from_str (List.replicate 128 '1')).elim True (fun b => b.len ≤ 127)) := by
  refine ⟨rfl, by decide, rfl, ?_⟩
  intro hcontra
  rw [show Bitseq.from_str (List.replicate 128 '1') = some ⟨2 ^ 128 - 1, 128⟩ from rfl]
    at hcontra
  simp [Option.elim] at hcontra

/-- C10 (amended): the widths the constructors actually guarantee are
`0 ≤ len ≤ 128`, not `1 ≤ len ≤ 127`: `new` rejects `len ≥ 128` by panic
(so a constructed value has `len ≤ 127`, with `len = 0` allowed); `from_str`
enforces `1 ≤ len ≤ 128` (so `len = 128` is possible); `From<u128>` yields
the value's bit length (`0` for value 0, at most 128 overall);
`TryFrom<Integer>` feeds `From<u128>` values at most `2^127 - 1`, so its
results have `len ≤ 127`; and `neg_mut` preserves `len`. -/
theorem claim_C10_width_bounds :
    (∀ (v l : Nat) (b : Bitseq), Bitseq.new v l = .ok b → b.len ≤ 127) ∧
    (∀ (s : List Char) (b : Bitseq), Bitseq.from_str s = some b →
      1 ≤ b.len ∧ b.len ≤ 128) ∧
    (∀ v : Nat, v < 2 ^ 128 → (Bitseq.fromBitseqT v).len ≤ 128) ∧
    (∀ (i : Int) (b : Bitseq), 0 ≤ i → i ≤ 2 ^ 127 - 1 →
      Bitseq.tryFromInteger i = .ok b → b.len ≤ 127) ∧
    (∀ b : Bitseq, (Bitseq.neg_mut b).len = b.len) := by
  refine ⟨?_, ?_, ?_, ?_, fun _ => rfl⟩
  · intro v l b h
    rw [Bitseq.new] at h
    split at h
    · cases h
    · next hlt =>
        cases h
        show l ≤ 127
        omega
  · intro s b h
    rw [Bitseq.from_str] at h
    split at h
    · cases h
    · next hcond =>
        cases h
        simp only [Bool.or_eq_true, not_or, decide_eq_true_eq] at hcond
        have hc1 : ¬(s.length < 1) := hcond.1.1
        have hc2 : ¬(128 < s.length) := hcond.1.2
        constructor
        · show 1 ≤ s.length
          omega
        · show s.length ≤ 128
          omega
  · intro v hv
    exact bitLenAux_le 128 v 128 hv (le_refl 128)
  · intro i b h0 hmax h
    rw [Bitseq.tryFromInteger, if_neg (not_lt.mpr h0)] at h
    cases h
    show Bitseq.bitLenAux 128 i.toNat ≤ 127
    exact bitLenAux_le 128 i.toNat 127 (by omega) (by omega)

theorem claim_C10_witness :
    (1 ≤ (Bitseq.mk 5 3).len ∧ (Bitseq.mk 5 3).len ≤ 128) ∧
    ((Bitseq.neg_mut (Bitseq.mk 5 3)).len = (Bitseq.mk 5 3).len) :=
  ⟨claim_C10_width_bounds.2.1 ['1', '0', '1'] ⟨5, 3⟩ rfl,
   claim_C10_width_bounds.2.2.2.2 ⟨5, 3⟩⟩

theorem claim_C6_witness :
    ((⟨fun _ => none, [], []⟩ : ValueStoreR).set "Pi" (Value.from_integer 3)).1 = true ∧
    (((⟨fun _ => none, [], []⟩ : ValueStoreR).set_readonly "Pi"
        (Value.from_integer 3)).2.readonly_keys.contains "Pi".toLower) = true :=
  ⟨(claim_C6_readonly_semantics ⟨fun _ => none, [], []⟩ "Pi" (Value.from_integer 3)).2
      (by rfl) |>.1,
   (claim_C6_readonly_semantics ⟨fun _ => none, [], []⟩ "Pi" (Value.from_integer 3)).2
      (by rfl) |>.2.2.2.2.1⟩

end TCalc
